import Mathlib

/-!
Verification development for the Vertex Pursuit recorder
(vertex_pursuit_game.py) and replay viewer (replay_viewer.py).

The two programs share a CSV data contract.  We embed the data model
(samples, trajectory records, the CSV cell encoding), the recorder trial
state machine, the participant auto-numbering scan, and the replay loop
as executable Lean definitions translated from the Python source, and
prove the specified properties about them.

Conventions of the embedding:
* Python ints are Lean Int (x, y, event) or Nat (participant, trial);
  Python float timestamps are modelled as exact rationals (every IEEE
  binary64 value is a rational, and Python repr/parse of floats is an
  exact round trip), with the float-to-string codec kept abstract.
* A CSV file is a list of rows, each row a list of cell strings; the
  csv writer/reader pair is the identity at this level because every
  cell the recorder writes is a plain number (no commas or quotes).
* The file system is a map from file names to optional file contents.
-/

/- ## Decimal cell codec: Python str() and int() on integers -/

/-- Value of one decimal digit character, none for non-digits. -/
def digitVal (c : Char) : Option Nat :=
  if c.isDigit then some (c.toNat - 48) else none

/-- Accumulating decimal parse of a run of digit characters. -/
def pyNatCore : List Char → Nat → Option Nat
  | [], acc => some acc
  | c :: cs, acc =>
    match digitVal c with
    | some d => pyNatCore cs (acc * 10 + d)
    | none => none

/-- Python int(s) on a plain decimal string: an optional sign followed by
at least one digit.  (Whitespace and underscore forms are out of scope:
no claim exercises them.) -/
def pyIntCore : List Char → Option Int
  | [] => none
  | c :: cs =>
    if c = '-' then
      if cs = [] then none else (pyNatCore cs 0).map (fun n => -(n : Int))
    else if c = '+' then
      if cs = [] then none else (pyNatCore cs 0).map (fun n => (n : Int))
    else
      (pyNatCore (c :: cs) 0).map (fun n => (n : Int))

/-- Python int() applied to a cell string. -/
def pyInt (s : String) : Option Int := pyIntCore s.data

/-- Fuel-indexed most-significant-first decimal digits of a natural
number; fuel n + 1 always suffices. -/
def encNatAux : Nat → Nat → List Char
  | 0, _ => []
  | fuel + 1, n =>
    if n < 10 then [Nat.digitChar n]
    else encNatAux fuel (n / 10) ++ [Nat.digitChar (n % 10)]

/-- Decimal digit characters of a natural number, as written by
Python str(). -/
def digitsOf (n : Nat) : List Char := encNatAux (n + 1) n

/-- Python str() of a nonnegative integer. -/
def encNat (n : Nat) : String := ⟨digitsOf n⟩

/-- Python str() of an integer. -/
def encInt (i : Int) : String :=
  if i < 0 then ⟨'-' :: digitsOf i.natAbs⟩ else encNat i.natAbs

/-- Python min on two numbers: the first argument on ties. -/
def pyMin (a b : ℚ) : ℚ := if a ≤ b then a else b

/- ## Data model -/

/-- One captured sample: (timestamp, x, y, event_flag), as appended by
the motion handler.  Timestamps are modelled as exact rationals. -/
structure Sample where
  timestamp : ℚ
  x : Int
  y : Int
  event : Int
  deriving DecidableEq

/-- A stored CSV file: list of rows, each row a list of cell strings. -/
abbrev CsvFile := List (List String)

/-- The trajectory storage directory: file name to optional contents. -/
abbrev FS := String → Option CsvFile

/-- The header row written by the recorder and expected by the viewer. -/
def expectedHeader : List String := ["Timestamp", "X", "Y", "Event"]

/-- One CSV data row for a sample, as written by csv.writer: each cell
is the str() of the field.  The float-to-string codec encT is abstract. -/
def encodeSample (encT : ℚ → String) (s : Sample) : List String :=
  [encT s.timestamp, encInt s.x, encInt s.y, encInt s.event]

/-- The deterministic record name SHSA_participant_trial.csv. -/
def trajFilename (p t : Nat) : String :=
  "SHSA_" ++ encNat p ++ "_" ++ encNat t ++ ".csv"

/-- Outcome of the attempted file write: success, or an IOError leaving
unspecified contents at the path (the open call truncates first). -/
inductive WriteOutcome where
  | ok
  | err (leftover : Option CsvFile)
  deriving DecidableEq

/- ## Recorder: state and persistence (vertex_pursuit_game.py) -/

/-- The mutable fields of VertexPursuitGame touched by the handlers. -/
structure GameState where
  tracking : Bool
  mouse_positions : List Sample
  space_event : Int
  start_time : ℚ
  save_prompt : Bool
  next_participant : Bool
  participant_number : Nat
  trial_number : Nat
  deriving DecidableEq

/-- self.max_trials. -/
def maxTrials : Nat := 5

/-- The state right after __init__ for a given scanned participant. -/
def initState (p : Nat) : GameState :=
  { tracking := false, mouse_positions := [], space_event := 0, start_time := 0,
    save_prompt := false, next_participant := false,
    participant_number := p, trial_number := 1 }

/-- VertexPursuitGame._save_trajectory_data: returns False without
touching storage when the record is empty; otherwise opens the
deterministic path in truncating write mode and writes the header row
followed by one row per sample, returning True, or False on IOError. -/
def _save_trajectory_data (encT : ℚ → String) (wr : WriteOutcome)
    (g : GameState) (fs : FS) : FS × Bool :=
  if g.mouse_positions = [] then (fs, false)
  else
    match wr with
    | .ok =>
      (fun name =>
        if name = trajFilename g.participant_number g.trial_number then
          some (expectedHeader :: g.mouse_positions.map (encodeSample encT))
        else fs name,
       true)
    | .err leftover =>
      (fun name =>
        if name = trajFilename g.participant_number g.trial_number then leftover
        else fs name,
       false)

/-- Key codes relevant to VertexPursuitGame._handle_keydown. -/
inductive GKey where
  | ks | kq | ky | kn | kspace | kescape | kother
  deriving DecidableEq

/-- VertexPursuitGame._handle_keydown, transcribed branch by branch in
source order.  now models time.time() at the moment of handling; wr
models the outcome of the file write should one be attempted.  The
returned Bool is the running flag (False only for ESC). -/
def _handle_keydown (encT : ℚ → String) (now : ℚ) (wr : WriteOutcome) (key : GKey)
    (g : GameState) (fs : FS) : GameState × FS × Bool :=
  if key = GKey.ks ∧ g.next_participant = false then
    ({ g with tracking := true, start_time := now, mouse_positions := [] }, fs, true)
  else if key = GKey.kq then
    ({ g with tracking := false, save_prompt := true }, fs, true)
  else if key = GKey.ky ∧ g.save_prompt = true then
    let res := _save_trajectory_data encT wr g fs
    if res.2 then
      if g.trial_number + 1 > maxTrials then
        ({ g with
            trial_number := g.trial_number + 1,
            save_prompt := false,
            next_participant := true }, res.1, true)
      else
        ({ g with trial_number := g.trial_number + 1, save_prompt := false },
         res.1, true)
    else
      ({ g with save_prompt := false }, res.1, true)
  else if key = GKey.kn ∧ g.save_prompt = true then
    ({ g with save_prompt := false }, fs, true)
  else if key = GKey.ky ∧ g.next_participant = true then
    ({ g with
        participant_number := g.participant_number + 1,
        trial_number := 1,
        next_participant := false }, fs, true)
  else if key = GKey.kn ∧ g.next_participant = true then
    ({ g with next_participant := false }, fs, true)
  else if key = GKey.kspace then
    ({ g with space_event := 1 }, fs, true)
  else if key = GKey.kescape then
    (g, fs, false)
  else (g, fs, true)

/-- VertexPursuitGame._handle_keyup. -/
def _handle_keyup (key : GKey) (g : GameState) : GameState :=
  if key = GKey.kspace then { g with space_event := 0 } else g

/-- VertexPursuitGame._handle_mouse_motion: appends a sample only while
tracking, stamping it with the held spacebar flag. -/
def _handle_mouse_motion (now : ℚ) (ax ay : Int) (g : GameState) : GameState :=
  if g.tracking then
    { g with
        mouse_positions := g.mouse_positions ++
          [{ timestamp := now - g.start_time, x := ax, y := ay,
             event := g.space_event }] }
  else g

/-- One pygame event reaching the recorder main loop. -/
inductive GEvent where
  | keydown (k : GKey) (now : ℚ) (wr : WriteOutcome)
  | keyup (k : GKey)
  | mouseMotion (ax ay : Int) (now : ℚ)
  | quitEvent

/-- Recorder process state: game object fields, storage, running flag. -/
structure GameWorld where
  g : GameState
  fs : FS
  running : Bool

/-- One event dispatch of VertexPursuitGame.run. -/
def gameStep (encT : ℚ → String) (ev : GEvent) (w : GameWorld) : GameWorld :=
  if w.running = false then w
  else
    match ev with
    | .quitEvent => { w with running := false }
    | .keydown k now wr =>
      let r := _handle_keydown encT now wr k w.g w.fs
      { g := r.1, fs := r.2.1, running := r.2.2 }
    | .keyup k => { w with g := _handle_keyup k w.g }
    | .mouseMotion ax ay now => { w with g := _handle_mouse_motion now ax ay w.g }

/-- Folding a list of input events through the recorder loop. -/
def runEvents (encT : ℚ → String) (evs : List GEvent) (w : GameWorld) : GameWorld :=
  evs.foldl (fun acc e => gameStep encT e acc) w

/- ## Participant auto-numbering -/

/-- Python str.split(sep) for a single-character separator. -/
def splitOnSep (sep : Char) : List Char → List (List Char)
  | [] => [[]]
  | c :: cs =>
    match splitOnSep sep cs with
    | [] => [[]]
    | g :: gs => if c = sep then [] :: g :: gs else (c :: g) :: gs

/-- Whether a file name matches the glob SHSA_*.csv. -/
def matchesGlob (name : String) : Bool :=
  decide (name.data.take 5 = "SHSA_".data) &&
    decide (name.data.drop (name.data.length - 4) = ".csv".data)

/-- Path.stem of a glob-matched name: such a name ends in the 4-char
suffix .csv, which stem removes. -/
def fileStem (name : String) : List Char :=
  name.data.take (name.data.length - 4)

/-- Participant component extraction: split the stem on the underscore
and int() the second part, None when it is missing or non-numeric. -/
def participantOf (name : String) : Option Int :=
  match splitOnSep '_' (fileStem name) with
  | _ :: p :: _ => pyIntCore p
  | _ => none

/-- VertexPursuitGame._get_next_participant_number over the list of
file names in the trajectory directory. -/
def _get_next_participant_number (files : List String) : Int :=
  let existing := files.filter matchesGlob
  if existing = [] then 1
  else (existing.filterMap participantOf).foldl max 0 + 1

/- ## Replay viewer (replay_viewer.py) -/

/-- The replay loop state carried across iterations of _replay_trial. -/
structure ReplayState where
  counter : Nat
  previous_position : Int × Int
  previous_timestamp : ℚ
  spacebar_events : List (Int × Int)
  is_paused : Bool
  deriving DecidableEq

/-- Input events reaching the replay loop in one iteration. -/
inductive ReplayCmd where
  | quitEvent | keyP | keyQ | keyR | other
  deriving DecidableEq

/-- The event-handling for-loop of _replay_trial: QUIT and the Q key
return -1 at once, R returns 1 (restart), P toggles the pause flag. -/
def handleReplayEvents : List ReplayCmd → Bool → Option Int × Bool
  | [], paused => (none, paused)
  | c :: rest, paused =>
    match c with
    | .quitEvent => (some (-1), paused)
    | .keyQ => (some (-1), paused)
    | .keyR => (some 1, paused)
    | .keyP => handleReplayEvents rest (!paused)
    | .other => handleReplayEvents rest paused

/-- Result of one iteration of the replay while-loop body. -/
inductive ReplayStep where
  | exitCode (r : Int)
  | cont (s : ReplayState) (slept : ℚ)
  deriving DecidableEq

/-- The state every playback pass starts from: _replay_trial resets the
cursor, positions and marker set, and run() sets is_paused to True
before calling it. -/
def startPassState : ReplayState :=
  { counter := 0, previous_position := (-1, -1), previous_timestamp := 0,
    spacebar_events := [], is_paused := true }

/-- One iteration of the _replay_trial while-loop: handle the events,
then if unpaused draw the segment to the sample at the cursor, record
its position as a marker when its event flag is 1, sleep
min(delta, 0.1) when the cursor is past the first sample and the delta
is positive, and advance the cursor.  slept is the time.sleep amount
performed before the flip that shows this sample. -/
def replayIter (data : List Sample) (evs : List ReplayCmd) (s : ReplayState) :
    ReplayStep :=
  match handleReplayEvents evs s.is_paused with
  | (some r, _) => .exitCode r
  | (none, paused) =>
    if paused then .cont { s with is_paused := paused } 0
    else
      match data[s.counter]? with
      | none => .cont { s with is_paused := paused } 0
      | some smp =>
        let cur := (smp.x, smp.y)
        let marks :=
          if smp.event = 1 then s.spacebar_events ++ [cur] else s.spacebar_events
        let slept : ℚ :=
          if s.counter > 0 then
            if smp.timestamp - s.previous_timestamp > 0 then
              pyMin (smp.timestamp - s.previous_timestamp) (1 / 10)
            else 0
          else 0
        .cont { counter := s.counter + 1, previous_position := cur,
                previous_timestamp := smp.timestamp, spacebar_events := marks,
                is_paused := paused } slept

/-- The while-loop of _replay_trial driven by a list of per-iteration
event batches: returns the final loop state, the return code (0 when
the cursor reached the end, none when the supplied batches ran out
mid-pass), and the list of sleep amounts in order. -/
def replayLoop (data : List Sample) :
    List (List ReplayCmd) → ReplayState → ReplayState × Option Int × List ℚ
  | [], s => (s, none, [])
  | evs :: rest, s =>
    if s.counter < data.length then
      match replayIter data evs s with
      | .exitCode r => (s, some r, [])
      | .cont s1 d =>
        let r := replayLoop data rest s1
        (r.1, r.2.1, d :: r.2.2)
    else (s, some 0, [])

/- ## Loading (replay_viewer.py _load_trial_data) -/

/-- Parse of one data row: float(row[0]), int(row[1]), int(row[2]),
int(row[3]); extra cells are ignored, missing cells are an IndexError,
failed conversions a ValueError, both making the row invalid. -/
def parseRow (decT : String → Option ℚ) : List String → Option Sample
  | t :: xs :: ys :: es :: _ =>
    match decT t, pyInt xs, pyInt ys, pyInt es with
    | some ts, some xv, some yv, some ev =>
      some { timestamp := ts, x := xv, y := yv, event := ev }
    | _, _, _, _ => none
  | _ => none

/-- Outcome of a load: the parsed record, Invalid (zero usable rows, or
an unreadable file), or NotFound. -/
inductive LoadResult where
  | ok (rows : List Sample)
  | invalid
  | notFound
  deriving DecidableEq

/-- A load together with its warnings: whether the header mismatch
warning was printed, and the (row number, row) invalid-row warnings. -/
structure LoadOutput where
  result : LoadResult
  headerWarn : Bool
  skipped : List (Nat × List String)
  deriving DecidableEq

/-- The row loop of _load_trial_data: enumerate(reader, start=2),
keeping parsed rows in order and recording a warning for each
malformed row. -/
def loadRows (decT : String → Option ℚ) :
    List (List String) → Nat → List Sample × List (Nat × List String)
  | [], _ => ([], [])
  | row :: rest, rowNum =>
    let r := loadRows decT rest (rowNum + 1)
    match parseRow decT row with
    | some s => (s :: r.1, r.2)
    | none => (r.1, (rowNum, row) :: r.2)

/-- VertexPursuitReplay._load_trial_data on the contents found at the
path: a missing file is NotFound; a file with no rows at all fails on
the header read; otherwise a non-matching header is only a warning,
malformed rows are skipped with warnings, and the load fails with
Invalid exactly when no valid rows remain. -/
def _load_trial_data (decT : String → Option ℚ) (file : Option CsvFile) :
    LoadOutput :=
  match file with
  | none => { result := .notFound, headerWarn := false, skipped := [] }
  | some [] => { result := .invalid, headerWarn := false, skipped := [] }
  | some (header :: rows) =>
    let hw := if header = expectedHeader then false else true
    let r := loadRows decT rows 2
    if r.1 = [] then { result := .invalid, headerWarn := hw, skipped := r.2 }
    else { result := .ok r.1, headerWarn := hw, skipped := r.2 }

/- ## Concrete scenario data used by particular claims -/

/-- A degenerate float codec: every timestamp prints as the cell 0. -/
def encT0 : ℚ → String := fun _ => "0"

/-- A float parser defined on the single cell 0. -/
def decQ0 : String → Option ℚ := fun s => if s = "0" then some 0 else none

/-- An empty storage directory. -/
def emptyFS : FS := fun _ => none

/-- Recorder process state at startup with scanned participant 1. -/
def w0 : GameWorld := { g := initState 1, fs := emptyFS, running := true }

/-- One full confirmed trial: start, one motion sample, stop, confirm. -/
def trialCycle (base : ℚ) : List GEvent :=
  [GEvent.keydown GKey.ks base WriteOutcome.ok,
   GEvent.mouseMotion 10 20 (base + 1 / 2),
   GEvent.keydown GKey.kq (base + 1) WriteOutcome.ok,
   GEvent.keydown GKey.ky (base + 1) WriteOutcome.ok]

/-- Five consecutive confirmed save cycles from Idle. -/
def fiveCycles : List GEvent :=
  trialCycle 0 ++ trialCycle 10 ++ trialCycle 20 ++ trialCycle 30 ++ trialCycle 40

/-- A record with samples at timestamps 0, 0.05 and 0.2. -/
def data3 : List Sample :=
  [{ timestamp := 0, x := 0, y := 0, event := 0 },
   { timestamp := 1 / 20, x := 1, y := 1, event := 0 },
   { timestamp := 1 / 5, x := 2, y := 2, event := 0 }]

/-- A recorder state holding one captured sample for trial 1. -/
def gDemo : GameState :=
  { initState 1 with
      mouse_positions := [{ timestamp := 0, x := 3, y := 4, event := 1 }] }

/-- A storage state that already holds a file for participant 1 trial 1. -/
def fsOld : FS :=
  fun name => if name = trajFilename 1 1 then some [["old"]] else none

/-- A recorder state as left by a confirmed fifth trial whose record is
still in memory, with the advance-participant prompt showing. -/
def gPrev : GameState :=
  { tracking := false,
    mouse_positions := [{ timestamp := 0, x := 7, y := 8, event := 0 }],
    space_event := 0, start_time := 0, save_prompt := false,
    next_participant := true, participant_number := 1, trial_number := 6 }

/-- A mid-pass replay state sitting before the third sample of data3. -/
def rs2 : ReplayState :=
  { counter := 2, previous_position := (1, 1), previous_timestamp := 1 / 20,
    spacebar_events := [], is_paused := false }

/-- An unpaused replay state at the start of a pass. -/
def rs0 : ReplayState :=
  { counter := 0, previous_position := (-1, -1), previous_timestamp := 0,
    spacebar_events := [], is_paused := false }

/-- A one-sample record whose sample has the event flag set. -/
def data1e : List Sample :=
  [{ timestamp := 0, x := 5, y := 6, event := 1 }]

/- ## Integer codec round-trip lemmas and sanity examples -/

example : encNat 123 = "123" := by decide
example : encInt (-45) = "-45" := by decide
example : encNat 0 = "0" := by decide
example : pyInt "007" = some 7 := by decide
example : pyInt "-12" = some (-12) := by decide
example : pyInt "ab" = none := by decide
example : pyInt "" = none := by decide

/- ## Round-trip lemmas for the integer codec -/

theorem digitVal_digitChar (d : Nat) (h : d < 10) :
    digitVal (Nat.digitChar d) = some d := by
  interval_cases d <;> decide

theorem digitChar_not_special (d : Nat) (h : d < 10) :
    Nat.digitChar d ≠ '_' ∧ Nat.digitChar d ≠ '-' ∧ Nat.digitChar d ≠ '+' := by
  interval_cases d <;> decide

theorem encNatAux_mem (fuel n : Nat) (c : Char) (hc : c ∈ encNatAux fuel n) :
    ∃ d, d < 10 ∧ c = Nat.digitChar d := by
  induction fuel generalizing n with
  | zero => simp [encNatAux] at hc
  | succ fuel ih =>
    rw [encNatAux] at hc
    by_cases h : n < 10
    · rw [if_pos h] at hc
      simp only [List.mem_singleton] at hc
      exact ⟨n, h, hc⟩
    · rw [if_neg h] at hc
      rcases List.mem_append.mp hc with h1 | h2
      · exact ih _ h1
      · simp only [List.mem_singleton] at h2
        exact ⟨n % 10, Nat.mod_lt _ (by omega), h2⟩

theorem encNatAux_ne_nil (fuel n : Nat) (h : 0 < fuel) :
    encNatAux fuel n ≠ [] := by
  cases fuel with
  | zero => omega
  | succ fuel =>
    rw [encNatAux]
    by_cases h10 : n < 10
    · rw [if_pos h10]; simp
    · rw [if_neg h10]; simp

theorem digitsOf_ne_nil (n : Nat) : digitsOf n ≠ [] :=
  encNatAux_ne_nil (n + 1) n (by omega)

theorem pyNatCore_append (l1 l2 : List Char) (acc m : Nat)
    (h : pyNatCore l1 acc = some m) :
    pyNatCore (l1 ++ l2) acc = pyNatCore l2 m := by
  induction l1 generalizing acc with
  | nil =>
    simp only [pyNatCore] at h
    cases h
    simp
  | cons c cs ih =>
    simp only [pyNatCore, List.cons_append] at h ⊢
    cases hd : digitVal c with
    | none => rw [hd] at h; exact Option.noConfusion h
    | some d => rw [hd] at h; exact ih _ h

theorem pyNatCore_encNatAux (fuel : Nat) : ∀ n acc : Nat, n < 10 ^ fuel →
    pyNatCore (encNatAux fuel n) acc =
      some (acc * 10 ^ (encNatAux fuel n).length + n) := by
  induction fuel with
  | zero =>
    intro n acc h
    have hn : n = 0 := by simpa using h
    subst hn
    simp [encNatAux, pyNatCore]
  | succ fuel ih =>
    intro n acc h
    rw [encNatAux]
    by_cases h10 : n < 10
    · rw [if_pos h10]
      simp [pyNatCore, digitVal_digitChar n h10]
    · rw [if_neg h10]
      have hdiv : n / 10 < 10 ^ fuel := by
        rw [Nat.div_lt_iff_lt_mul (by omega)]
        calc n < 10 ^ (fuel + 1) := h
          _ = 10 ^ fuel * 10 := by ring
      have hmain := ih (n / 10) acc hdiv
      rw [pyNatCore_append _ _ _ _ hmain]
      have hlt : n % 10 < 10 := Nat.mod_lt _ (by omega)
      have harith : ∀ L : Nat,
          (acc * 10 ^ L + n / 10) * 10 + n % 10 = acc * 10 ^ (L + 1) + n := by
        intro L
        have hdm := Nat.div_add_mod n 10
        have hpow : 10 ^ (L + 1) = 10 ^ L * 10 := by ring
        rw [hpow, ← Nat.mul_assoc]
        generalize acc * 10 ^ L = M
        omega
      simp only [pyNatCore, digitVal_digitChar _ hlt]
      congr 1
      have h1 : (encNatAux fuel (n / 10) ++ [Nat.digitChar (n % 10)]).length
          = (encNatAux fuel (n / 10)).length + 1 := by simp
      rw [h1, harith]

theorem pyNatCore_digitsOf (n acc : Nat) :
    pyNatCore (digitsOf n) acc =
      some (acc * 10 ^ (digitsOf n).length + n) := by
  have hb : n < 10 ^ (n + 1) := by
    calc n < 2 ^ n := Nat.lt_two_pow n
      _ ≤ 10 ^ n := Nat.pow_le_pow_left (by omega) n
      _ ≤ 10 ^ (n + 1) := Nat.pow_le_pow_right (by omega) (by omega)
  exact pyNatCore_encNatAux (n + 1) n acc hb

theorem pyNatCore_digitsOf_zero (n : Nat) :
    pyNatCore (digitsOf n) 0 = some n := by
  have h := pyNatCore_digitsOf n 0
  simpa using h

theorem pyIntCore_cons (c : Char) (cs : List Char) :
    pyIntCore (c :: cs) =
      (if c = '-' then
        if cs = [] then none else (pyNatCore cs 0).map (fun n => -(n : Int))
      else if c = '+' then
        if cs = [] then none else (pyNatCore cs 0).map (fun n => (n : Int))
      else (pyNatCore (c :: cs) 0).map (fun n => (n : Int))) := rfl

theorem pyIntCore_digitsOf (n : Nat) : pyIntCore (digitsOf n) = some (n : Int) := by
  obtain ⟨c, cs, hcons⟩ : ∃ c cs, digitsOf n = c :: cs := by
    cases h : digitsOf n with
    | nil => exact absurd h (digitsOf_ne_nil n)
    | cons c cs => exact ⟨c, cs, rfl⟩
  have hmem : c ∈ digitsOf n := by rw [hcons]; exact List.mem_cons_self c cs
  obtain ⟨d, hd, hcd⟩ := encNatAux_mem (n + 1) n c hmem
  have hne := digitChar_not_special d hd
  have hc1 : c ≠ '-' := by rw [hcd]; exact hne.2.1
  have hc2 : c ≠ '+' := by rw [hcd]; exact hne.2.2
  rw [hcons, pyIntCore_cons, if_neg hc1, if_neg hc2, ← hcons, pyNatCore_digitsOf_zero]
  rfl

theorem pyInt_encInt (i : Int) : pyInt (encInt i) = some i := by
  by_cases hi : i < 0
  · rw [encInt, if_pos hi]
    show pyIntCore ('-' :: digitsOf i.natAbs) = some i
    rw [pyIntCore_cons, if_pos rfl, if_neg (digitsOf_ne_nil i.natAbs),
      pyNatCore_digitsOf_zero]
    show some (-(i.natAbs : Int)) = some i
    congr 1
    omega
  · rw [encInt, if_neg hi]
    show pyIntCore (digitsOf i.natAbs) = some i
    rw [pyIntCore_digitsOf]
    congr 1
    omega

/- ## Helper lemmas -/

theorem encNat_data (n : Nat) : (encNat n).data = digitsOf n := rfl

theorem pyMin_eq_min (a b : ℚ) : pyMin a b = min a b := by
  rw [min_def]; rfl

theorem parseRow_encodeSample (encT : ℚ → String) (decT : String → Option ℚ)
    (s : Sample) (h : decT (encT s.timestamp) = some s.timestamp) :
    parseRow decT (encodeSample encT s) = some s := by
  simp [encodeSample, parseRow, h, pyInt_encInt]

theorem filterMap_parse_encode (encT : ℚ → String) (decT : String → Option ℚ)
    (l : List Sample)
    (h : ∀ s ∈ l, decT (encT s.timestamp) = some s.timestamp) :
    (l.map (encodeSample encT)).filterMap (parseRow decT) = l := by
  induction l with
  | nil => rfl
  | cons a as ih =>
    rw [List.map_cons,
      List.filterMap_cons_some
        (parseRow_encodeSample encT decT a (h a (List.mem_cons_self a as))),
      ih (fun s hs => h s (List.mem_cons_of_mem a hs))]

theorem loadRows_fst (decT : String → Option ℚ) (rows : List (List String)) :
    ∀ n, (loadRows decT rows n).1 = rows.filterMap (parseRow decT) := by
  induction rows with
  | nil => intro n; rfl
  | cons r rest ih =>
    intro n
    cases hp : parseRow decT r with
    | none => simp [loadRows, hp, ih]
    | some s => simp [loadRows, hp, ih]

theorem loadRows_snd (decT : String → Option ℚ) (rows : List (List String)) :
    ∀ n, (loadRows decT rows n).2 =
      (List.enumFrom n rows).filter (fun nr => (parseRow decT nr.2).isNone) := by
  induction rows with
  | nil => intro n; rfl
  | cons r rest ih =>
    intro n
    cases hp : parseRow decT r with
    | none => simp [loadRows, hp, ih, List.enumFrom_cons, List.filter_cons]
    | some s => simp [loadRows, hp, ih, List.enumFrom_cons, List.filter_cons]

theorem loadRows_snd_nil (decT : String → Option ℚ) (rows : List (List String))
    (h : ∀ r ∈ rows, (parseRow decT r).isSome) :
    ∀ n, (loadRows decT rows n).2 = [] := by
  induction rows with
  | nil => intro n; rfl
  | cons r rest ih =>
    intro n
    have h1 := h r (List.mem_cons_self r rest)
    cases hp : parseRow decT r with
    | none => rw [hp] at h1; exact absurd h1 (by simp)
    | some s =>
      simp [loadRows, hp, ih (fun x hx => h x (List.mem_cons_of_mem r hx))]

theorem replayIter_markers_extend (data : List Sample) (evs : List ReplayCmd)
    (s s1 : ReplayState) (d : ℚ)
    (h : replayIter data evs s = ReplayStep.cont s1 d) :
    ∃ l, s1.spacebar_events = s.spacebar_events ++ l := by
  unfold replayIter at h
  cases hev : handleReplayEvents evs s.is_paused with
  | mk code p =>
    rw [hev] at h
    cases code with
    | some r => exact absurd h (by simp)
    | none =>
      by_cases hp : p = true
      · rw [hp] at h
        simp only [if_pos] at h
        injection h with h1 h2
        exact ⟨[], by rw [← h1]; simp⟩
      · rw [Bool.not_eq_true] at hp
        rw [hp] at h
        simp only [Bool.false_eq_true, if_false] at h
        cases hd : data[s.counter]? with
        | none =>
          rw [hd] at h
          injection h with h1 h2
          exact ⟨[], by rw [← h1]; simp⟩
        | some smp =>
          rw [hd] at h
          injection h with h1 h2
          by_cases he : smp.event = 1
          · refine ⟨[(smp.x, smp.y)], ?_⟩
            rw [← h1]
            simp [he]
          · refine ⟨[], ?_⟩
            rw [← h1]
            simp [he]

theorem replayLoop_markers_extend (data : List Sample)
    (batches : List (List ReplayCmd)) :
    ∀ s : ReplayState, ∃ l,
      (replayLoop data batches s).1.spacebar_events = s.spacebar_events ++ l := by
  induction batches with
  | nil => intro s; exact ⟨[], by simp [replayLoop]⟩
  | cons evs rest ih =>
    intro s
    by_cases hc : s.counter < data.length
    · cases hstep : replayIter data evs s with
      | exitCode r => exact ⟨[], by simp [replayLoop, hc, hstep]⟩
      | cont s1 d =>
        obtain ⟨l1, hl1⟩ := replayIter_markers_extend data evs s s1 d hstep
        obtain ⟨l2, hl2⟩ := ih s1
        refine ⟨l1 ++ l2, ?_⟩
        simp only [replayLoop, hc, if_pos, hstep]
        rw [hl2, hl1, List.append_assoc]
    · exact ⟨[], by simp [replayLoop, hc]⟩

theorem splitOnSep_ne_nil (sep : Char) (l : List Char) : splitOnSep sep l ≠ [] := by
  cases l with
  | nil => simp [splitOnSep]
  | cons c cs =>
    simp only [splitOnSep]
    cases h : splitOnSep sep cs with
    | nil => simp
    | cons g gs => by_cases hc : c = sep <;> simp [hc]

theorem splitOnSep_no_sep (sep : Char) (l : List Char) (h : ∀ c ∈ l, c ≠ sep) :
    splitOnSep sep l = [l] := by
  induction l with
  | nil => rfl
  | cons c cs ih =>
    have hcs := ih (fun x hx => h x (List.mem_cons_of_mem c hx))
    simp only [splitOnSep, hcs]
    rw [if_neg (h c (List.mem_cons_self c cs))]

theorem splitOnSep_append (sep : Char) (l2 : List Char) :
    ∀ l1 : List Char, (∀ c ∈ l1, c ≠ sep) →
      splitOnSep sep (l1 ++ sep :: l2) = l1 :: splitOnSep sep l2 := by
  intro l1
  induction l1 with
  | nil =>
    intro _
    simp only [List.nil_append, splitOnSep]
    cases h : splitOnSep sep l2 with
    | nil => exact absurd h (splitOnSep_ne_nil sep l2)
    | cons g gs => simp
  | cons c cs ih =>
    intro h
    have hcs := ih (fun x hx => h x (List.mem_cons_of_mem c hx))
    simp only [List.cons_append, splitOnSep, List.append_eq, hcs]
    rw [if_neg (h c (List.mem_cons_self c cs))]

theorem digitsOf_no_underscore (n : Nat) : ∀ c ∈ digitsOf n, c ≠ '_' := by
  intro c hc
  obtain ⟨d, hd, rfl⟩ := encNatAux_mem (n + 1) n c hc
  exact (digitChar_not_special d hd).1

theorem trajFilename_data (p t : Nat) :
    (trajFilename p t).data =
      ("SHSA_".data ++ (digitsOf p ++ '_' :: digitsOf t)) ++ ".csv".data := by
  have h1 : (trajFilename p t).data =
      ((("SHSA_".data ++ digitsOf p) ++ "_".data) ++ digitsOf t) ++ ".csv".data := by
    show (("SHSA_" ++ encNat p ++ "_" ++ encNat t) ++ ".csv").data = _
    rw [String.data_append, String.data_append, String.data_append,
      String.data_append, encNat_data, encNat_data]
  rw [h1]
  have h2 : "_".data = ['_'] := rfl
  rw [h2]
  simp [List.append_assoc]

theorem traj_take (p t : Nat) :
    (trajFilename p t).data.take 5 = "SHSA_".data := by
  rw [trajFilename_data, List.append_assoc]
  exact List.take_left' rfl

theorem traj_len (p t : Nat) :
    (trajFilename p t).data.length =
      ("SHSA_".data ++ (digitsOf p ++ '_' :: digitsOf t)).length + 4 := by
  rw [trajFilename_data, List.length_append]
  rfl

theorem traj_drop (p t : Nat) :
    (trajFilename p t).data.drop ((trajFilename p t).data.length - 4) =
      ".csv".data := by
  rw [traj_len, Nat.add_sub_cancel, trajFilename_data]
  exact List.drop_left' rfl

theorem matchesGlob_traj (p t : Nat) : matchesGlob (trajFilename p t) = true := by
  unfold matchesGlob
  rw [traj_take, traj_drop]
  rfl

theorem fileStem_traj (p t : Nat) :
    fileStem (trajFilename p t) =
      "SHSA_".data ++ (digitsOf p ++ '_' :: digitsOf t) := by
  unfold fileStem
  rw [traj_len, Nat.add_sub_cancel, trajFilename_data]
  exact List.take_left' rfl

theorem participantOf_traj (p t : Nat) :
    participantOf (trajFilename p t) = some (p : Int) := by
  unfold participantOf
  rw [fileStem_traj]
  have hA : "SHSA_".data ++ (digitsOf p ++ '_' :: digitsOf t) =
      "SHSA".data ++ '_' :: (digitsOf p ++ '_' :: digitsOf t) := rfl
  rw [hA, splitOnSep_append '_' (digitsOf p ++ '_' :: digitsOf t) "SHSA".data
      (by decide),
    splitOnSep_append '_' (digitsOf t) (digitsOf p) (digitsOf_no_underscore p),
    splitOnSep_no_sep '_' (digitsOf t) (digitsOf_no_underscore t)]
  exact pyIntCore_digitsOf p

/- ## Claim theorems -/

/-- Claim C5: saving an empty record (zero samples) always fails, and the
failed save neither creates a new file nor overwrites any existing file:
the emptiness check precedes any storage access, so the whole storage map
is returned unchanged, whatever the write outcome would have been. -/
theorem c5_empty_save_fails (encT : ℚ → String) (wr : WriteOutcome)
    (g : GameState) (fs : FS) (h : g.mouse_positions = []) :
    _save_trajectory_data encT wr g fs = (fs, false) := by
  simp [_save_trajectory_data, h]

/-- Witness for C5 at a concrete empty-record state. -/
theorem c5_witness :
    _save_trajectory_data encT0 WriteOutcome.ok (initState 1) emptyFS =
      (emptyFS, false) :=
  c5_empty_save_fails encT0 WriteOutcome.ok (initState 1) emptyFS rfl

/-- Claim C10: saving a non-empty record for a (participant, trial) pair
whose file already exists silently succeeds and overwrites that file with
the new record: the write opens the deterministic path in truncating
mode with no existence check, so the stored contents afterwards are the
new header-plus-rows encoding regardless of what was there before. -/
theorem c10_silent_overwrite (encT : ℚ → String) (g : GameState) (fs : FS)
    (old : CsvFile) (h1 : g.mouse_positions ≠ [])
    (_hold : fs (trajFilename g.participant_number g.trial_number) = some old) :
    (_save_trajectory_data encT WriteOutcome.ok g fs).2 = true ∧
    (_save_trajectory_data encT WriteOutcome.ok g fs).1
        (trajFilename g.participant_number g.trial_number) =
      some (expectedHeader :: g.mouse_positions.map (encodeSample encT)) := by
  constructor
  · simp [_save_trajectory_data, h1]
  · simp [_save_trajectory_data, h1]

/-- Witness for C10: a one-sample record overwrites the pre-existing file
of participant 1 trial 1. -/
theorem c10_witness :
    (_save_trajectory_data encT0 WriteOutcome.ok gDemo fsOld).2 = true ∧
    (_save_trajectory_data encT0 WriteOutcome.ok gDemo fsOld).1
        (trajFilename gDemo.participant_number gDemo.trial_number) =
      some (expectedHeader :: gDemo.mouse_positions.map (encodeSample encT0)) :=
  c10_silent_overwrite encT0 gDemo fsOld [["old"]] (by simp [gDemo])
    (by rfl)

/-- Claim C9: the stop command is not guarded by the Tracking state: for
any recorder state, also one where the advance-participant prompt is
showing, the stop key enters the save prompt over whatever record is in
memory, and confirming there writes that record under the current
(participant, trial) name. -/
theorem c9_stop_unguarded (encT : ℚ → String) (now now2 : ℚ)
    (wr : WriteOutcome) (g : GameState) (fs : FS)
    (h : g.mouse_positions ≠ []) :
    _handle_keydown encT now wr GKey.kq g fs =
      ({ g with tracking := false, save_prompt := true }, fs, true) ∧
    (_handle_keydown encT now2 WriteOutcome.ok GKey.ky
        { g with tracking := false, save_prompt := true } fs).2.1
        (trajFilename g.participant_number g.trial_number) =
      some (expectedHeader :: g.mouse_positions.map (encodeSample encT)) := by
  constructor
  · simp [_handle_keydown]
  · by_cases htr : g.trial_number + 1 > maxTrials <;>
      simp [_handle_keydown, _save_trajectory_data, h, htr]

/-- Witness for C9: pressed in the state left after the fifth confirmed
trial with the advance prompt showing, stop re-enters the save prompt
and confirm re-saves the retained record under trial number 6. -/
theorem c9_witness :
    _handle_keydown encT0 0 WriteOutcome.ok GKey.kq gPrev emptyFS =
      ({ gPrev with tracking := false, save_prompt := true }, emptyFS, true) ∧
    (_handle_keydown encT0 1 WriteOutcome.ok GKey.ky
        { gPrev with tracking := false, save_prompt := true } emptyFS).2.1
        (trajFilename gPrev.participant_number gPrev.trial_number) =
      some (expectedHeader :: gPrev.mouse_positions.map (encodeSample encT0)) :=
  c9_stop_unguarded encT0 0 1 WriteOutcome.ok gPrev emptyFS (by simp [gPrev])

/-- Claim C8: on confirm in the save prompt, the trial number is
incremented exactly when persistence succeeds; the save succeeds exactly
when the record is non-empty and the write raises no error; and a failed
save leaves the participant number, the trial number and the in-memory
record unchanged, so the user may retry. -/
theorem c8_confirm_increments_iff_saved (encT : ℚ → String) (now : ℚ)
    (wr : WriteOutcome) (g : GameState) (fs : FS) (h : g.save_prompt = true) :
    ((_handle_keydown encT now wr GKey.ky g fs).1.trial_number =
        g.trial_number + 1 ↔
      (_save_trajectory_data encT wr g fs).2 = true) ∧
    ((_save_trajectory_data encT wr g fs).2 = true ↔
      (g.mouse_positions ≠ [] ∧ wr = WriteOutcome.ok)) ∧
    ((_save_trajectory_data encT wr g fs).2 = false →
      (_handle_keydown encT now wr GKey.ky g fs).1.participant_number =
          g.participant_number ∧
      (_handle_keydown encT now wr GKey.ky g fs).1.trial_number =
          g.trial_number ∧
      (_handle_keydown encT now wr GKey.ky g fs).1.mouse_positions =
          g.mouse_positions) := by
  refine ⟨?_, ?_, ?_⟩
  · by_cases hsv : (_save_trajectory_data encT wr g fs).2 = true
    · by_cases htr : g.trial_number + 1 > maxTrials <;>
        simp [_handle_keydown, h, hsv, htr]
    · simp [_handle_keydown, h, hsv]
  · unfold _save_trajectory_data
    by_cases hmp : g.mouse_positions = []
    · simp [hmp]
    · cases wr with
      | ok => simp [hmp]
      | err lo => simp [hmp]
  · intro hsv
    simp [_handle_keydown, h, hsv]

/-- Witness for C8 at a concrete prompt state whose write fails. -/
theorem c8_witness :
    ((_handle_keydown encT0 0 (WriteOutcome.err none) GKey.ky
        { gDemo with save_prompt := true } emptyFS).1.trial_number =
        ({ gDemo with save_prompt := true } : GameState).trial_number + 1 ↔
      (_save_trajectory_data encT0 (WriteOutcome.err none)
        { gDemo with save_prompt := true } emptyFS).2 = true) ∧
    ((_save_trajectory_data encT0 (WriteOutcome.err none)
        { gDemo with save_prompt := true } emptyFS).2 = true ↔
      (({ gDemo with save_prompt := true } : GameState).mouse_positions ≠ [] ∧
        WriteOutcome.err none = WriteOutcome.ok)) ∧
    ((_save_trajectory_data encT0 (WriteOutcome.err none)
        { gDemo with save_prompt := true } emptyFS).2 = false →
      (_handle_keydown encT0 0 (WriteOutcome.err none) GKey.ky
          { gDemo with save_prompt := true } emptyFS).1.participant_number =
        ({ gDemo with save_prompt := true } : GameState).participant_number ∧
      (_handle_keydown encT0 0 (WriteOutcome.err none) GKey.ky
          { gDemo with save_prompt := true } emptyFS).1.trial_number =
        ({ gDemo with save_prompt := true } : GameState).trial_number ∧
      (_handle_keydown encT0 0 (WriteOutcome.err none) GKey.ky
          { gDemo with save_prompt := true } emptyFS).1.mouse_positions =
        ({ gDemo with save_prompt := true } : GameState).mouse_positions) :=
  c8_confirm_increments_iff_saved encT0 0 (WriteOutcome.err none)
    { gDemo with save_prompt := true } emptyFS rfl

/-- Claim C1: for every non-empty trajectory record, saving it and then
loading the written file yields exactly the original rows, in capture
order, with x, y and event equal as integers and the timestamp equal
under the float codec round trip (the hypothesis hcodec is precisely the
floating-point round-trip fidelity of the record timestamps); no row is
skipped and no header warning is raised. -/
theorem c1_save_load_roundtrip (encT : ℚ → String) (decT : String → Option ℚ)
    (g : GameState) (fs : FS) (hne : g.mouse_positions ≠ [])
    (hcodec : ∀ s ∈ g.mouse_positions,
      decT (encT s.timestamp) = some s.timestamp) :
    (_save_trajectory_data encT WriteOutcome.ok g fs).2 = true ∧
    _load_trial_data decT
        ((_save_trajectory_data encT WriteOutcome.ok g fs).1
          (trajFilename g.participant_number g.trial_number)) =
      { result := LoadResult.ok g.mouse_positions, headerWarn := false,
        skipped := [] } := by
  have hsave2 : (_save_trajectory_data encT WriteOutcome.ok g fs).1
      (trajFilename g.participant_number g.trial_number) =
      some (expectedHeader :: g.mouse_positions.map (encodeSample encT)) := by
    simp [_save_trajectory_data, hne]
  refine ⟨by simp [_save_trajectory_data, hne], ?_⟩
  rw [hsave2]
  have hall : ∀ r ∈ g.mouse_positions.map (encodeSample encT),
      (parseRow decT r).isSome := by
    intro r hr
    obtain ⟨s, hs, rfl⟩ := List.mem_map.mp hr
    rw [parseRow_encodeSample encT decT s (hcodec s hs)]
    rfl
  have hfst := loadRows_fst decT (g.mouse_positions.map (encodeSample encT)) 2
  have hsnd := loadRows_snd_nil decT _ hall 2
  rw [filterMap_parse_encode encT decT _ hcodec] at hfst
  simp [_load_trial_data, hfst, hsnd, hne]

/-- Witness for C1 with a concrete one-sample record and a concrete
codec defined at its timestamp. -/
theorem c1_witness :
    (_save_trajectory_data encT0 WriteOutcome.ok gDemo emptyFS).2 = true ∧
    _load_trial_data decQ0
        ((_save_trajectory_data encT0 WriteOutcome.ok gDemo emptyFS).1
          (trajFilename gDemo.participant_number gDemo.trial_number)) =
      { result := LoadResult.ok gDemo.mouse_positions, headerWarn := false,
        skipped := [] } :=
  c1_save_load_roundtrip encT0 decQ0 gDemo emptyFS (by simp [gDemo])
    (by
      intro s hs
      simp only [gDemo, List.mem_singleton] at hs
      rw [hs]
      rfl)

/-- Claim C4: loading a present file keeps exactly the rows that parse,
in order, and fails with Invalid exactly when no row parses; each
malformed row is skipped with a warning carrying its row number; a
header differing from Timestamp,X,Y,Event sets only the header warning
and the load result does not depend on the header row at all. -/
theorem c4_load_tolerance (decT : String → Option ℚ)
    (header header2 : List String) (rows : List (List String)) :
    (_load_trial_data decT (some (header :: rows))).result =
      (if rows.filterMap (parseRow decT) = [] then LoadResult.invalid
       else LoadResult.ok (rows.filterMap (parseRow decT))) ∧
    ((_load_trial_data decT (some (header :: rows))).headerWarn = true ↔
      header ≠ expectedHeader) ∧
    (_load_trial_data decT (some (header :: rows))).skipped =
      (List.enumFrom 2 rows).filter (fun nr => (parseRow decT nr.2).isNone) ∧
    (_load_trial_data decT (some (header :: rows))).result =
      (_load_trial_data decT (some (header2 :: rows))).result := by
  have hload : ∀ hd : List String,
      _load_trial_data decT (some (hd :: rows)) =
        { result := if (loadRows decT rows 2).1 = [] then LoadResult.invalid
            else LoadResult.ok (loadRows decT rows 2).1,
          headerWarn := if hd = expectedHeader then false else true,
          skipped := (loadRows decT rows 2).2 } := by
    intro hd
    by_cases hr : (loadRows decT rows 2).1 = [] <;>
      simp [_load_trial_data, hr]
  refine ⟨?_, ?_, ?_, ?_⟩
  · rw [hload header, loadRows_fst]
  · rw [hload header]
    by_cases hh : header = expectedHeader <;> simp [hh]
  · rw [hload header, loadRows_snd]
  · rw [hload header, hload header2]

/-- Claim C6: the participant scan over a directory holding records named
by the convention for the given (participant, trial) pairs, plus any
files that either miss the glob or have a non-numeric participant part,
returns one greater than the maximum participant component (0 when there
are none, so an empty directory yields 1); the trial components do not
enter the result and the junk files are ignored rather than failing. -/
theorem c6_next_participant (pairs : List (Nat × Nat)) (junk : List String)
    (hjunk : ∀ j ∈ junk, matchesGlob j = false ∨ participantOf j = none) :
    _get_next_participant_number
        (junk ++ pairs.map (fun pt => trajFilename pt.1 pt.2)) =
      (pairs.map (fun pt => (pt.1 : Int))).foldl max 0 + 1 := by
  have hmaps : (pairs.map (fun pt => trajFilename pt.1 pt.2)).filter matchesGlob
      = pairs.map (fun pt => trajFilename pt.1 pt.2) := by
    rw [List.filter_eq_self]
    intro a ha
    obtain ⟨pt, hpt, rfl⟩ := List.mem_map.mp ha
    exact matchesGlob_traj pt.1 pt.2
  have hjunkmap : (junk.filter matchesGlob).filterMap participantOf = [] := by
    rw [List.filterMap_eq_nil_iff]
    intro a ha
    obtain ⟨haj, hglob⟩ := List.mem_filter.mp ha
    rcases hjunk a haj with hg | hp
    · rw [hg] at hglob; exact absurd hglob (by simp)
    · exact hp
  have hmapsnum :
      (pairs.map (fun pt => trajFilename pt.1 pt.2)).filterMap participantOf
        = pairs.map (fun pt => (pt.1 : Int)) := by
    rw [List.filterMap_map]
    have hfun : participantOf ∘ (fun pt : Nat × Nat => trajFilename pt.1 pt.2)
        = some ∘ (fun pt : Nat × Nat => (pt.1 : Int)) :=
      funext fun pt => participantOf_traj pt.1 pt.2
    rw [hfun, List.filterMap_eq_map]
  unfold _get_next_participant_number
  rw [List.filter_append, hmaps]
  by_cases hemp :
      (junk.filter matchesGlob ++ pairs.map (fun pt => trajFilename pt.1 pt.2))
        = []
  · rw [if_pos hemp]
    have hm : pairs.map (fun pt => trajFilename pt.1 pt.2) = [] :=
      (List.append_eq_nil.mp hemp).2
    have hp : pairs = [] := List.map_eq_nil_iff.mp hm
    rw [hp]
    rfl
  · rw [if_neg hemp, List.filterMap_append, hjunkmap, hmapsnum,
      List.nil_append]

/-- Witness for C6: an empty-looking pair of junk files plus records for
participants 1, 3, 3 and 7 under differing trial numbers yields 8. -/
theorem c6_witness :
    _get_next_participant_number
        (["notes.txt", "SHSA_ab.csv"] ++
          [((1 : Nat), (1 : Nat)), (3, 2), (3, 5), (7, 4)].map
            (fun pt => trajFilename pt.1 pt.2)) = 8 := by
  rw [c6_next_participant [((1 : Nat), (1 : Nat)), (3, 2), (3, 5), (7, 4)]
    ["notes.txt", "SHSA_ab.csv"] (by decide)]
  decide

/-- Claim C3: during playback the sleep performed before the draw of the
sample at a cursor position k is 0 when k is 0 or when the recorded
delta to the previous sample is not positive, and min(delta, 0.1)
otherwise; in particular timestamps 0, 0.05, 0.2 produce the sleeps
0, 0.05 and 0.1 across the pass, and 0.15 never occurs. -/
theorem c3_playback_delays :
    (∀ (data : List Sample) (s : ReplayState) (smp smp1 : Sample),
      s.is_paused = false → s.counter ≠ 0 →
      data[s.counter]? = some smp → data[s.counter - 1]? = some smp1 →
      s.previous_timestamp = smp1.timestamp →
      ∃ s1, replayIter data [] s = ReplayStep.cont s1
        (if smp.timestamp - smp1.timestamp > 0 then
          pyMin (smp.timestamp - smp1.timestamp) (1 / 10) else 0)) ∧
    (∀ (data : List Sample) (s : ReplayState) (smp : Sample),
      s.is_paused = false → s.counter = 0 → data[0]? = some smp →
      ∃ s1, replayIter data [] s = ReplayStep.cont s1 0) ∧
    (replayLoop data3 [[ReplayCmd.keyP], [], [], []] startPassState).2.2 =
      [0, 1 / 20, 1 / 10] ∧
    (3 / 20 : ℚ) ∉
      (replayLoop data3 [[ReplayCmd.keyP], [], [], []] startPassState).2.2 := by
  have h3 : (replayLoop data3 [[ReplayCmd.keyP], [], [], []]
      startPassState).2.2 = [0, 1 / 20, 1 / 10] := by
    norm_num [replayLoop, replayIter, handleReplayEvents, startPassState,
      data3, pyMin]
  refine ⟨?_, ?_, h3, ?_⟩
  · intro data s smp smp1 hp h0 hc hc1 hts
    have heq : replayIter data [] s = ReplayStep.cont
        { counter := s.counter + 1, previous_position := (smp.x, smp.y),
          previous_timestamp := smp.timestamp,
          spacebar_events := if smp.event = 1 then
            s.spacebar_events ++ [(smp.x, smp.y)] else s.spacebar_events,
          is_paused := false }
        (if smp.timestamp - smp1.timestamp > 0 then
          pyMin (smp.timestamp - smp1.timestamp) (1 / 10) else 0) := by
      unfold replayIter
      simp only [handleReplayEvents, hp, hc, Bool.false_eq_true, if_false]
      rw [hts, if_pos (Nat.pos_of_ne_zero h0)]
    exact ⟨_, heq⟩
  · intro data s smp hp h0 hc
    have heq : replayIter data [] s = ReplayStep.cont
        { counter := s.counter + 1, previous_position := (smp.x, smp.y),
          previous_timestamp := smp.timestamp,
          spacebar_events := if smp.event = 1 then
            s.spacebar_events ++ [(smp.x, smp.y)] else s.spacebar_events,
          is_paused := false } 0 := by
      unfold replayIter
      simp only [handleReplayEvents, hp, h0, hc, Bool.false_eq_true, if_false,
        gt_iff_lt, lt_self_iff_false]
    exact ⟨_, heq⟩
  · rw [h3]
    norm_num

/-- Witness for C3: the second-to-third step of data3, whose recorded
delta 0.15 is capped. -/
theorem c3_witness :
    ∃ s1, replayIter data3 [] rs2 = ReplayStep.cont s1
      (if (1 / 5 : ℚ) - 1 / 20 > 0 then
        pyMin ((1 / 5 : ℚ) - 1 / 20) (1 / 10) else 0) :=
  c3_playback_delays.1 data3 rs2
    { timestamp := 1 / 5, x := 2, y := 2, event := 0 }
    { timestamp := 1 / 20, x := 1, y := 1, event := 0 }
    rfl (by decide) rfl rfl rfl

/-- Claim C7: across one playback pass the marker set only grows: however
many loop iterations run, the final marker list extends the starting one
by a suffix; a processed sample appends its position exactly when its
event flag is 1; the restart key exits the pass with code 1; and the
state every new pass starts from is paused with cursor 0 and an empty
marker set. -/
theorem c7_marker_monotone_and_restart :
    (∀ (data : List Sample) (batches : List (List ReplayCmd))
        (s : ReplayState),
      ∃ l, (replayLoop data batches s).1.spacebar_events =
        s.spacebar_events ++ l) ∧
    (∀ (data : List Sample) (s : ReplayState) (smp : Sample),
      s.is_paused = false → data[s.counter]? = some smp → smp.event = 1 →
      ∃ d, replayIter data [] s = ReplayStep.cont
        { s with
            counter := s.counter + 1,
            previous_position := (smp.x, smp.y),
            previous_timestamp := smp.timestamp,
            spacebar_events := s.spacebar_events ++ [(smp.x, smp.y)],
            is_paused := false } d) ∧
    (∀ (data : List Sample) (s : ReplayState),
      replayIter data [ReplayCmd.keyR] s = ReplayStep.exitCode 1) ∧
    (startPassState.counter = 0 ∧ startPassState.is_paused = true ∧
      startPassState.spacebar_events = []) := by
  refine ⟨fun data batches s => replayLoop_markers_extend data batches s,
    ?_, ?_, ⟨rfl, rfl, rfl⟩⟩
  · intro data s smp hp hc he
    have heq : replayIter data [] s = ReplayStep.cont
        { s with
            counter := s.counter + 1,
            previous_position := (smp.x, smp.y),
            previous_timestamp := smp.timestamp,
            spacebar_events := s.spacebar_events ++ [(smp.x, smp.y)],
            is_paused := false }
        (if s.counter > 0 then
          (if smp.timestamp - s.previous_timestamp > 0 then
            pyMin (smp.timestamp - s.previous_timestamp) (1 / 10) else 0)
         else 0) := by
      unfold replayIter
      simp [handleReplayEvents, hp, hc, he]
    exact ⟨_, heq⟩
  · intro data s
    rfl

/-- Witness for C7: one unpaused step over a flagged sample appends its
position to the marker set. -/
theorem c7_witness :
    ∃ d, replayIter data1e [] rs0 = ReplayStep.cont
      { counter := 1, previous_position := (5, 6), previous_timestamp := 0,
        spacebar_events := [(5, 6)], is_paused := false } d := by
  have h := c7_marker_monotone_and_restart.2.1 data1e rs0
    { timestamp := 0, x := 5, y := 6, event := 1 } rfl rfl rfl
  simpa [rs0] using h

/-- Claim C2 counterexample: after five confirmed save cycles from Idle
(participant 1 reaching the advance prompt with trial number 6),
cancelling the prompt does NOT make further recording impossible: the
start key is accepted again (tracking turns on) and a subsequent mouse
motion appends a sample to a fresh record, refuting the final clause of
the claim; participant and trial numbers are 1 and 6 as claimed. -/
theorem c2_counterexample :
    (runEvents encT0 fiveCycles w0).g.next_participant = true ∧
    (runEvents encT0 fiveCycles w0).g.trial_number = 6 ∧
    (runEvents encT0 fiveCycles w0).g.participant_number = 1 ∧
    (runEvents encT0 (fiveCycles ++
        [GEvent.keydown GKey.kn 99 WriteOutcome.ok,
         GEvent.keydown GKey.ks 100 WriteOutcome.ok]) w0).g.tracking = true ∧
    (runEvents encT0 (fiveCycles ++
        [GEvent.keydown GKey.kn 99 WriteOutcome.ok,
         GEvent.keydown GKey.ks 100 WriteOutcome.ok,
         GEvent.mouseMotion 11 12 101]) w0).g.mouse_positions ≠ [] := by
  refine ⟨by decide, by decide, by decide, by decide, by decide⟩

/-- Claim C2 (amended): starting from Idle, five consecutive confirmed
save cycles put the recorder into the advance prompt with trial number
6; confirming there increments the participant number to 2 and resets
the trial number to 1; cancelling leaves the participant number at 1 and
the trial number at max_trials + 1 = 6, and recording remains possible
for this participant: the start command is accepted again once the
prompt is dismissed (further confirmed saves would record trial numbers
above max_trials). -/
theorem c2_amended :
    (runEvents encT0 fiveCycles w0).g.next_participant = true ∧
    (runEvents encT0 fiveCycles w0).g.trial_number = 6 ∧
    (runEvents encT0 fiveCycles w0).g.participant_number = 1 ∧
    (runEvents encT0 (fiveCycles ++
        [GEvent.keydown GKey.ky 50 WriteOutcome.ok]) w0).g.participant_number
      = 2 ∧
    (runEvents encT0 (fiveCycles ++
        [GEvent.keydown GKey.ky 50 WriteOutcome.ok]) w0).g.trial_number = 1 ∧
    (runEvents encT0 (fiveCycles ++
        [GEvent.keydown GKey.ky 50 WriteOutcome.ok]) w0).g.next_participant
      = false ∧
    (runEvents encT0 (fiveCycles ++
        [GEvent.keydown GKey.kn 50 WriteOutcome.ok]) w0).g.participant_number
      = 1 ∧
    (runEvents encT0 (fiveCycles ++
        [GEvent.keydown GKey.kn 50 WriteOutcome.ok]) w0).g.trial_number = 6 ∧
    (runEvents encT0 (fiveCycles ++
        [GEvent.keydown GKey.kn 50 WriteOutcome.ok]) w0).g.next_participant
      = false ∧
    (runEvents encT0 (fiveCycles ++
        [GEvent.keydown GKey.kn 50 WriteOutcome.ok,
         GEvent.keydown GKey.ks 60 WriteOutcome.ok]) w0).g.tracking = true := by
  refine ⟨by decide, by decide, by decide, by decide, by decide, by decide,
    by decide, by decide, by decide, by decide⟩
